import Mathlib

/-!
Shallow embedding of the light-craft model service (src/main.rs, src/model.rs).

The service keeps "model" records in a SQLite table
`models (id TEXT PRIMARY KEY, name TEXT, version TEXT, data BLOB, create_time INTEGER)`
and exposes create / list / delete over HTTP.  The embedding models the
table as a list of rows of dynamically-typed SQL values, the SQLite
statements `INSERT`, `DELETE ... WHERE id=:id` and `SELECT * FROM models`
as pure functions on that list, and external storage failures
(disk errors, failed prepare / query) as explicit boolean failure
injections matching the `match`-on-`Result` branches of the Rust code.

Nondeterministic inputs of the Rust code are explicit parameters:
the freshly generated UUID string (`Uuid::new_v4().to_string()`) and the
captured timestamp (`Local::now().timestamp_millis()`).  A Rust panic
(the `model.unwrap()` in `get_models`) is modelled as `Option.none`.
-/

namespace LightCraft

/-- A dynamically typed SQLite value: the storage classes a `models` cell
can hold. -/
inductive SqlValue where
  | null : SqlValue
  | integer : Int → SqlValue
  | text : String → SqlValue
  | blob : List UInt8 → SqlValue
deriving DecidableEq

/-- One stored row of the `models` table, columns in `SELECT *` order:
id, name, version, data, create_time. -/
structure Row where
  id : SqlValue
  name : SqlValue
  version : SqlValue
  data : SqlValue
  create_time : SqlValue
deriving DecidableEq

/-- The `models` table, in the engine's natural scan (insertion) order. -/
abbrev Table := List Row

/-- Numeric value of a decimal digit character. -/
def digitVal (c : Char) : Nat := c.toNat - 48

/-- Whether a character is a decimal digit `0`..`9`. -/
def isDigitChar (c : Char) : Bool := decide (48 ≤ c.toNat ∧ c.toNat ≤ 57)

/-- Fuel-driven digit extraction, least significant digit first; any fuel
above the number itself is enough. -/
def natToDigitsRevCore : Nat → Nat → List Char
  | 0, _ => []
  | fuel + 1, n =>
    if n < 10 then [Nat.digitChar n]
    else Nat.digitChar (n % 10) :: natToDigitsRevCore fuel (n / 10)

/-- Decimal digits of `n`, least significant first (the core of Rust's
integer `Display`). -/
def natToDigitsRev (n : Nat) : List Char := natToDigitsRevCore (n + 1) n

/-- Value of a digit list, least significant digit first. -/
def digitsRevVal : List Char → Nat
  | [] => 0
  | c :: cs => digitVal c + 10 * digitsRevVal cs

/-- Parse a non-empty all-digit character list, most significant first. -/
def parseDigits (l : List Char) : Option Nat :=
  if l.isEmpty then none
  else if l.all isDigitChar then some (l.foldl (fun a c => a * 10 + digitVal c) 0)
  else none

/-- Decimal rendering of a natural number (Rust `u64::to_string`). -/
def natToString (n : Nat) : String := String.mk (natToDigitsRev n).reverse

/-- Decimal rendering of a signed integer (Rust `i64::to_string`):
`-` prefix for negatives, no `+` and no leading zeros otherwise. -/
def intToString (i : Int) : String :=
  if i < 0 then String.mk ('-' :: (natToDigitsRev i.natAbs).reverse)
  else String.mk (natToDigitsRev i.natAbs).reverse

/-- SQLite's well-formed-integer-literal parse: optional sign followed by
one or more decimal digits. -/
def parseIntLit (s : String) : Option Int :=
  match s.data with
  | [] => none
  | c :: cs =>
    if c = '-' then (parseDigits cs).map (fun n => -(n : Int))
    else if c = '+' then (parseDigits cs).map (fun n => (n : Int))
    else (parseDigits (c :: cs)).map (fun n => (n : Int))

/-- INTEGER column affinity: a text value that is a well-formed integer
literal is stored as an integer; all other values are stored as bound. -/
def applyIntegerAffinity (v : SqlValue) : SqlValue :=
  match v with
  | .text s =>
    match parseIntLit s with
    | some i => .integer i
    | none => .text s
  | v => v

/-- The `Model` struct serialized back to clients. -/
structure Model where
  id : String
  name : String
  version : String
  data : String
  create_time : Int
deriving DecidableEq

/-- A failed `row.get(i)` column conversion (`rusqlite::Error::InvalidColumnType`). -/
inductive FromSqlError where
  | invalidType : FromSqlError
deriving DecidableEq

/-- `row.get::<String>`: only a TEXT cell converts to a Rust `String`. -/
def getStringCol : SqlValue → Except FromSqlError String
  | .text s => .ok s
  | _ => .error .invalidType

/-- `row.get::<i64>`: only an INTEGER cell converts to a Rust `i64`. -/
def getIntCol : SqlValue → Except FromSqlError Int
  | .integer i => .ok i
  | _ => .error .invalidType

/-- The row-to-`Model` closure passed to `query_map` in `get_models`:
`row.get(0)` .. `row.get(4)` chained with `?`, failing on the first bad
column. -/
def rowToModel (r : Row) : Except FromSqlError Model :=
  match getStringCol r.id with
  | .error e => .error e
  | .ok i =>
    match getStringCol r.name with
    | .error e => .error e
    | .ok nm =>
      match getStringCol r.version with
      | .error e => .error e
      | .ok ver =>
        match getStringCol r.data with
        | .error e => .error e
        | .ok dat =>
          match getIntCol r.create_time with
          | .error e => .error e
          | .ok ct =>
            .ok { id := i, name := nm, version := ver, data := dat,
                  create_time := ct }

/-- An error returned by `Connection::execute`. -/
inductive SqlExecError where
  | diskFailure : SqlExecError
  | constraintViolation : SqlExecError
deriving DecidableEq

/-- Log rendering of a `Connection::execute` error. -/
def sqlExecErrorMsg : SqlExecError → String
  | .diskFailure => "disk I/O error"
  | .constraintViolation => "UNIQUE constraint failed: models.id"

/-- The row `add_model` binds: every parameter is bound as text
(`id.to_string()`, `name`, `version`, `data`,
`now.timestamp_millis().to_string()`); column affinities then apply —
TEXT columns keep the text, the BLOB column stores it unchanged, and the
INTEGER column `create_time` converts the decimal string to an integer. -/
def insertedRow (genId nm ver dat : String) (now : Int) : Row :=
  { id := .text genId, name := .text nm, version := .text ver,
    data := .text dat,
    create_time := applyIntegerAffinity (.text (intToString now)) }

/-- `conn.execute(INSERT_MODEL, ...)`: fails on an injected disk failure or
on a duplicate primary key, otherwise appends the row and reports 1 row
updated. -/
def execInsert (diskFail : Bool) (t : Table) (r : Row) : Except SqlExecError (Table × Nat) :=
  if diskFail then .error .diskFailure
  else if t.any (fun r0 => r0.id == r.id) then .error .constraintViolation
  else .ok (t ++ [r], 1)

/-- `ModelStore::add_model`: generate id and timestamp (here passed in),
execute the INSERT, and swallow the result either way. -/
def add_model (diskFail : Bool) (genId : String) (now : Int) (nm ver dat : String)
    (t : Table) : Table :=
  match execInsert diskFail t (insertedRow genId nm ver dat now) with
  | .ok (t2, _) => t2
  | .error _ => t

/-- The line `add_model` prints for the two `match` branches. -/
def add_model_log (diskFail : Bool) (genId : String) (now : Int) (nm ver dat : String)
    (t : Table) : String :=
  match execInsert diskFail t (insertedRow genId nm ver dat now) with
  | .ok (_, updated) => natToString updated ++ " rows were updated"
  | .error e => "insert error, err=" ++ sqlExecErrorMsg e

/-- `conn.execute(DELETE_BY_ID, ...)`: fails only on an injected disk
failure; otherwise removes every row whose id cell equals the bound text
and reports how many rows were deleted. -/
def execDelete (diskFail : Bool) (t : Table) (genId : String) :
    Except SqlExecError (Table × Nat) :=
  if diskFail then .error .diskFailure
  else .ok (t.filter (fun r => !(r.id == SqlValue.text genId)),
            (t.filter (fun r => r.id == SqlValue.text genId)).length)

/-- `ModelStore::delete_model`: execute the DELETE and swallow the result
either way. -/
def delete_model (diskFail : Bool) (genId : String) (t : Table) : Table :=
  match execDelete diskFail t genId with
  | .ok (t2, _) => t2
  | .error _ => t

/-- The line `delete_model` prints for the two `match` branches. -/
def delete_model_log (diskFail : Bool) (genId : String) (t : Table) : String :=
  match execDelete diskFail t genId with
  | .ok (_, deleted) => natToString deleted ++ " rows were deleted"
  | .error e => "delete error, err=" ++ sqlExecErrorMsg e

/-- The row loop of `get_models`: convert each row, `unwrap`ping the
result — `none` models the panic on a failed conversion. -/
def collectRows : Table → Option (List Model)
  | [] => some []
  | r :: rs =>
    match rowToModel r with
    | .ok m => (collectRows rs).map (fun ms => m :: ms)
    | .error _ => none

/-- `ModelStore::get_models`: a failed `prepare` or `query_map` falls
through to returning the still-empty vector; otherwise every row is
converted and a conversion failure panics (`none`). -/
def get_models (prepareFail queryFail : Bool) (t : Table) : Option (List Model) :=
  if prepareFail then some []
  else if queryFail then some []
  else collectRows t

/-- The on-disk database file: `none` means the `models` table is absent. -/
structure SqliteFile where
  modelsTable : Option Table
deriving DecidableEq

/-- An initialization error of `new_model_store`. -/
inductive InitError where
  | openFailure : InitError
  | schemaFailure : InitError
deriving DecidableEq

/-- `Connection::open("data.db")`: creates the file (with no tables) if
absent; an injected failure models an unopenable file. -/
def openConn (openFails : Bool) (file : Option SqliteFile) : Except InitError SqliteFile :=
  if openFails then .error .openFailure
  else .ok (file.getD { modelsTable := none })

/-- The state change of `CREATE TABLE IF NOT EXISTS models ...`: keep an
existing table, create an empty one otherwise. -/
def runCreateModelTable (f : SqliteFile) : SqliteFile :=
  { modelsTable := some (f.modelsTable.getD []) }

/-- `conn.execute(CREATE_MODEL_TABLE, ())` with an injected schema
failure. -/
def execCreateModelTable (createFails : Bool) (f : SqliteFile) :
    Except InitError SqliteFile :=
  if createFails then .error .schemaFailure else .ok (runCreateModelTable f)

/-- `new_model_store`: open the database file, ensure the `models` table,
and propagate either error. -/
def new_model_store (openFails createFails : Bool) (file : Option SqliteFile) :
    Except InitError SqliteFile :=
  match openConn openFails file with
  | .ok conn =>
    match execCreateModelTable createFails conn with
    | .ok conn2 => .ok conn2
    | .error e => .error e
  | .error e => .error e

/-- What `main` ends up doing: serving on a host and port, or leaving the
startup branch without serving. -/
inductive MainOutcome where
  | serving : List Nat → Nat → SqliteFile → MainOutcome
  | exitedWithoutServing : MainOutcome
deriving DecidableEq

/-- `main`: on a successful store, serve the routes on 127.0.0.1:3000;
on `Err(_)` fall through the empty branch and exit. -/
def main (initResult : Except InitError SqliteFile) : MainOutcome :=
  match initResult with
  | .ok store => .serving [127, 0, 0, 1] 3000 store
  | .error _ => .exitedWithoutServing

/-- Body of `POST /model`. -/
structure CreateModelRequest where
  name : String
  version : String
  data : String
deriving DecidableEq

/-- Body of `DELETE /model`. -/
structure DeleteModelRequest where
  id : String
deriving DecidableEq

/-- An HTTP response: status code and body text. -/
structure HttpReply where
  status : Nat
  body : String
deriving DecidableEq

/-- JSON serialization of a string literal, as `warp::reply::json(&"...")`
produces. -/
def jsonString (s : String) : String := "\"" ++ s ++ "\""

/-- `create_model_handler`: call `add_model` under the write lock and
reply 200 with the JSON success string unconditionally. -/
def create_model_handler (diskFail : Bool) (genId : String) (now : Int)
    (req : CreateModelRequest) (t : Table) : Table × HttpReply :=
  (add_model diskFail genId now req.name req.version req.data t,
   { status := 200, body := jsonString "create success" })

/-- `delete_model_handler`: call `delete_model` under the write lock and
reply 200 with the JSON success string unconditionally. -/
def delete_model_handler (diskFail : Bool) (req : DeleteModelRequest) (t : Table) :
    Table × HttpReply :=
  (delete_model diskFail req.id t,
   { status := 200, body := jsonString "delete success" })

/-- `get_model_handler`: read the store under the read lock and reply with
the serialized model list; the store itself is returned unchanged. -/
def get_model_handler (prepareFail queryFail : Bool) (t : Table) :
    Table × Option (List Model) :=
  (t, get_models prepareFail queryFail t)

/-- Store states reachable from a fresh empty `models` table by the
operations the program can perform. -/
inductive Reachable : Table → Prop where
  | init : Reachable []
  | add (diskFail : Bool) (genId : String) (now : Int) (nm ver dat : String) {t : Table} :
      Reachable t → Reachable (add_model diskFail genId now nm ver dat t)
  | del (diskFail : Bool) (genId : String) {t : Table} :
      Reachable t → Reachable (delete_model diskFail genId t)

/-! ### Decimal rendering / SQLite integer-affinity round trip -/

theorem digitVal_digitChar {d : Nat} (h : d < 10) : digitVal (Nat.digitChar d) = d := by
  interval_cases d <;> decide

theorem isDigitChar_digitChar {d : Nat} (h : d < 10) :
    isDigitChar (Nat.digitChar d) = true := by
  interval_cases d <;> decide

theorem natToDigitsRevCore_fuel {f1 f2 n : Nat} (h1 : n < f1) (h2 : n < f2) :
    natToDigitsRevCore f1 n = natToDigitsRevCore f2 n := by
  induction f1 generalizing f2 n with
  | zero => omega
  | succ f ih =>
    cases f2 with
    | zero => omega
    | succ g =>
      simp only [natToDigitsRevCore]
      by_cases h : n < 10
      · simp [h]
      · simp only [if_neg h]
        congr 1
        exact ih (by omega) (by omega)

theorem natToDigitsRev_lt {n : Nat} (h : n < 10) :
    natToDigitsRev n = [Nat.digitChar n] := by
  unfold natToDigitsRev
  rw [natToDigitsRevCore]
  simp [h]

theorem natToDigitsRev_ge {n : Nat} (h : ¬ n < 10) :
    natToDigitsRev n = Nat.digitChar (n % 10) :: natToDigitsRev (n / 10) := by
  unfold natToDigitsRev
  rw [natToDigitsRevCore]
  simp only [if_neg h]
  congr 1
  exact natToDigitsRevCore_fuel (by omega) (by omega)

theorem natToDigitsRev_ne_nil (n : Nat) : natToDigitsRev n ≠ [] := by
  by_cases h : n < 10
  · rw [natToDigitsRev_lt h]
    simp
  · rw [natToDigitsRev_ge h]
    simp

theorem natToDigitsRev_all_digits (n : Nat) :
    (natToDigitsRev n).all isDigitChar = true := by
  induction n using Nat.strong_induction_on with
  | _ n ih =>
    by_cases h : n < 10
    · rw [natToDigitsRev_lt h]
      simp [isDigitChar_digitChar h]
    · rw [natToDigitsRev_ge h]
      simp only [List.all_cons, Bool.and_eq_true]
      exact ⟨isDigitChar_digitChar (Nat.mod_lt _ (by omega)),
        ih _ (Nat.div_lt_self (by omega) (by omega))⟩

theorem digitsRevVal_natToDigitsRev (n : Nat) :
    digitsRevVal (natToDigitsRev n) = n := by
  induction n using Nat.strong_induction_on with
  | _ n ih =>
    by_cases h : n < 10
    · rw [natToDigitsRev_lt h]
      simp [digitsRevVal, digitVal_digitChar h]
    · rw [natToDigitsRev_ge h]
      have h10 : n % 10 < 10 := Nat.mod_lt _ (by omega)
      rw [digitsRevVal, digitVal_digitChar h10,
        ih _ (Nat.div_lt_self (by omega) (by omega))]
      omega

theorem foldl_digits_reverse (l : List Char) :
    l.reverse.foldl (fun a c => a * 10 + digitVal c) 0 = digitsRevVal l := by
  induction l with
  | nil => rfl
  | cons c cs ih =>
    simp only [List.reverse_cons, List.foldl_append, List.foldl_cons,
      List.foldl_nil, digitsRevVal, ih]
    omega

theorem parseDigits_rendered (n : Nat) :
    parseDigits (natToDigitsRev n).reverse = some n := by
  have hne : (natToDigitsRev n).reverse ≠ [] := by
    simp only [ne_eq, List.reverse_eq_nil_iff]
    exact natToDigitsRev_ne_nil n
  have hall : (natToDigitsRev n).reverse.all isDigitChar = true := by
    rw [List.all_reverse]
    exact natToDigitsRev_all_digits n
  have hemp : ¬ ((natToDigitsRev n).reverse.isEmpty = true) := by
    simp [List.isEmpty_iff, hne]
  unfold parseDigits
  rw [if_neg hemp, if_pos hall, foldl_digits_reverse, digitsRevVal_natToDigitsRev]

theorem parseIntLit_mk_cons (c : Char) (cs : List Char) :
    parseIntLit (String.mk (c :: cs)) =
      if c = '-' then (parseDigits cs).map (fun n => -(n : Int))
      else if c = '+' then (parseDigits cs).map (fun n => (n : Int))
      else (parseDigits (c :: cs)).map (fun n => (n : Int)) := rfl

theorem isDigitChar_ne_minus {c : Char} (h : isDigitChar c = true) : c ≠ '-' := by
  intro e
  rw [e] at h
  exact absurd h (by decide)

theorem isDigitChar_ne_plus {c : Char} (h : isDigitChar c = true) : c ≠ '+' := by
  intro e
  rw [e] at h
  exact absurd h (by decide)

theorem parseIntLit_intToString (i : Int) : parseIntLit (intToString i) = some i := by
  unfold intToString
  by_cases h : i < 0
  · rw [if_pos h, parseIntLit_mk_cons, if_pos rfl, parseDigits_rendered]
    show some (-(i.natAbs : Int)) = some i
    congr 1
    omega
  · rw [if_neg h]
    obtain ⟨c, cs, hl⟩ :=
      List.exists_cons_of_ne_nil (l := (natToDigitsRev i.natAbs).reverse)
        (by simp only [ne_eq, List.reverse_eq_nil_iff]; exact natToDigitsRev_ne_nil _)
    have hc : isDigitChar c = true := by
      have hall : (natToDigitsRev i.natAbs).reverse.all isDigitChar = true := by
        rw [List.all_reverse]
        exact natToDigitsRev_all_digits _
      rw [hl, List.all_cons, Bool.and_eq_true] at hall
      exact hall.1
    rw [hl, parseIntLit_mk_cons, if_neg (isDigitChar_ne_minus hc),
      if_neg (isDigitChar_ne_plus hc), ← hl, parseDigits_rendered]
    show some ((i.natAbs : Int)) = some i
    congr 1
    omega

theorem applyIntegerAffinity_intToString (i : Int) :
    applyIntegerAffinity (SqlValue.text (intToString i)) = SqlValue.integer i := by
  simp [applyIntegerAffinity, parseIntLit_intToString]

theorem rowToModel_insertedRow (genId nm ver dat : String) (now : Int) :
    rowToModel (insertedRow genId nm ver dat now) =
      Except.ok { id := genId, name := nm, version := ver, data := dat,
                  create_time := now } := by
  simp only [rowToModel, insertedRow, applyIntegerAffinity_intToString,
    getStringCol, getIntCol]

/-! ### Row / Model correspondence and the `get_models` row loop -/

theorem rowToModel_ok_iff {r : Row} {m : Model} :
    rowToModel r = .ok m ↔
      r = { id := .text m.id, name := .text m.name, version := .text m.version,
            data := .text m.data, create_time := .integer m.create_time } := by
  obtain ⟨i, nm, ver, dat, ct⟩ := r
  obtain ⟨mi, mn, mv, md, mc⟩ := m
  cases i <;> cases nm <;> cases ver <;> cases dat <;> cases ct <;>
    simp [rowToModel, getStringCol, getIntCol, Row.mk.injEq, Model.mk.injEq,
      and_assoc]

theorem rowToModel_ok_id {r : Row} {m : Model} (h : rowToModel r = .ok m) :
    r.id = SqlValue.text m.id := by
  rw [rowToModel_ok_iff] at h
  rw [h]

theorem collectRows_append {t : Table} {ms : List Model} {r : Row} {m : Model}
    (ht : collectRows t = some ms) (hr : rowToModel r = .ok m) :
    collectRows (t ++ [r]) = some (ms ++ [m]) := by
  induction t generalizing ms with
  | nil =>
    simp only [collectRows, Option.some.injEq] at ht
    subst ht
    simp [collectRows, hr]
  | cons r0 rs ih =>
    rw [List.cons_append]
    cases h0 : rowToModel r0 with
    | error e =>
      rw [collectRows, h0] at ht
      simp at ht
    | ok m0 =>
      rw [collectRows, h0] at ht ⊢
      simp only [Option.map_eq_some'] at ht
      obtain ⟨ms1, hms1, rfl⟩ := ht
      rw [ih hms1]
      simp

theorem collectRows_mem {t : Table} {ms : List Model} (h : collectRows t = some ms) :
    (∀ r ∈ t, ∃ m ∈ ms, rowToModel r = .ok m) ∧
    (∀ m ∈ ms, ∃ r ∈ t, rowToModel r = .ok m) := by
  induction t generalizing ms with
  | nil =>
    simp only [collectRows, Option.some.injEq] at h
    subst h
    simp
  | cons r0 rs ih =>
    cases h0 : rowToModel r0 with
    | error e =>
      rw [collectRows, h0] at h
      simp at h
    | ok m0 =>
      rw [collectRows, h0] at h
      simp only [Option.map_eq_some'] at h
      obtain ⟨ms1, hms1, rfl⟩ := h
      obtain ⟨fwd, bwd⟩ := ih hms1
      constructor
      · intro r hr
        rcases List.mem_cons.mp hr with rfl | hr2
        · exact ⟨m0, List.mem_cons_self _ _, h0⟩
        · obtain ⟨m, hm, hrm⟩ := fwd r hr2
          exact ⟨m, List.mem_cons_of_mem _ hm, hrm⟩
      · intro m hm
        rcases List.mem_cons.mp hm with rfl | hm2
        · exact ⟨r0, List.mem_cons_self _ _, h0⟩
        · obtain ⟨r, hr, hrm⟩ := bwd m hm2
          exact ⟨r, List.mem_cons_of_mem _ hr, hrm⟩

theorem collectRows_eq_none_iff (t : Table) :
    collectRows t = none ↔ ∃ r ∈ t, ∃ e, rowToModel r = .error e := by
  induction t with
  | nil => simp [collectRows]
  | cons r0 rs ih =>
    cases h0 : rowToModel r0 with
    | error e =>
      rw [collectRows, h0]
      simp only [true_iff]
      exact ⟨r0, List.mem_cons_self _ _, e, h0⟩
    | ok m0 =>
      rw [collectRows, h0]
      simp only [Option.map_eq_none', ih, List.mem_cons]
      constructor
      · rintro ⟨r, hr, e, he⟩
        exact ⟨r, Or.inr hr, e, he⟩
      · rintro ⟨r, rfl | hr, e, he⟩
        · rw [h0] at he
          cases he
        · exact ⟨r, hr, e, he⟩

/-! ### Behaviour of the store operations -/

theorem get_models_eq_collectRows (t : Table) :
    get_models false false t = collectRows t := rfl

theorem add_model_failure (genId : String) (now : Int) (nm ver dat : String)
    (t : Table) : add_model true genId now nm ver dat t = t := rfl

theorem delete_model_failure (genId : String) (t : Table) :
    delete_model true genId t = t := rfl

theorem delete_model_eq_filter (genId : String) (t : Table) :
    delete_model false genId t =
      t.filter (fun r => !(r.id == SqlValue.text genId)) := rfl

theorem add_model_spec (diskFail : Bool) (genId : String) (now : Int)
    (nm ver dat : String) (t : Table) :
    add_model diskFail genId now nm ver dat t = t ∨
    ((∀ r ∈ t, r.id ≠ SqlValue.text genId) ∧
      add_model diskFail genId now nm ver dat t
        = t ++ [insertedRow genId nm ver dat now]) := by
  cases diskFail with
  | true => exact Or.inl rfl
  | false =>
    cases hany : t.any (fun r0 => r0.id == (insertedRow genId nm ver dat now).id) with
    | true =>
      left
      unfold add_model execInsert
      simp [hany]
    | false =>
      right
      constructor
      · intro r hr
        have := (List.any_eq_false.mp hany) r hr
        simpa [insertedRow] using this
      · unfold add_model execInsert
        simp [hany]

theorem add_model_fresh {genId : String} {t : Table}
    (now : Int) (nm ver dat : String)
    (hfresh : ∀ r ∈ t, r.id ≠ SqlValue.text genId) :
    add_model false genId now nm ver dat t
      = t ++ [insertedRow genId nm ver dat now] := by
  have hany : t.any (fun r0 => r0.id == (insertedRow genId nm ver dat now).id) = false := by
    rw [List.any_eq_false]
    intro r hr
    simpa [insertedRow] using hfresh r hr
  unfold add_model execInsert
  simp [hany]

theorem reachable_ids_nodup {t : Table} (h : Reachable t) :
    (t.map Row.id).Nodup := by
  induction h with
  | init => simp
  | add f genId now nm ver dat h ih =>
    rcases add_model_spec f genId now nm ver dat _ with he | ⟨hfresh, he⟩
    · rw [he]
      exact ih
    · rw [he, List.map_append, List.nodup_append]
      refine ⟨ih, by simp, ?_⟩
      intro x hx hx2
      simp only [List.map_cons, List.map_nil, List.mem_singleton, insertedRow] at hx2
      obtain ⟨r, hr, hrid⟩ := List.mem_map.mp hx
      rw [hx2] at hrid
      exact hfresh r hr hrid
  | del f genId h ih =>
    cases f with
    | true =>
      rw [delete_model_failure]
      exact ih
    | false =>
      rw [delete_model_eq_filter]
      exact (((List.filter_sublist _).map Row.id).nodup ih)

theorem reachable_rows_wellformed {t : Table} (h : Reachable t) :
    ∀ r ∈ t, ∃ m, rowToModel r = .ok m := by
  induction h with
  | init => simp
  | add f genId now nm ver dat h ih =>
    rcases add_model_spec f genId now nm ver dat _ with he | ⟨_, he⟩
    · rw [he]
      exact ih
    · rw [he]
      intro r hr
      rcases List.mem_append.mp hr with hr | hr
      · exact ih r hr
      · rw [List.mem_singleton.mp hr]
        exact ⟨_, rowToModel_insertedRow genId nm ver dat now⟩
  | del f genId h ih =>
    cases f with
    | true =>
      rw [delete_model_failure]
      exact ih
    | false =>
      rw [delete_model_eq_filter]
      intro r hr
      exact ih r (List.mem_of_mem_filter hr)

theorem new_model_store_error_iff (openFails createFails : Bool)
    (file : Option SqliteFile) :
    (∃ e, new_model_store openFails createFails file = .error e) ↔
      (openFails = true ∨ createFails = true) := by
  cases openFails <;> cases createFails <;>
    simp [new_model_store, openConn, execCreateModelTable]

theorem new_model_store_ok (file : Option SqliteFile) :
    new_model_store false false file
      = .ok (runCreateModelTable (file.getD { modelsTable := none })) := by
  simp [new_model_store, openConn, execCreateModelTable]

/-! ### The claims -/

/-- C1: a valid create request whose freshly generated id is non-empty and
not carried by any prior row makes a subsequent list return exactly the
prior models followed by one new record with the submitted name, version
and data, the generated id and the server-captured timestamp; the new id
differs from every prior model's id, and name/version are unconstrained,
so duplicate pairs are permitted. -/
theorem C1_create_then_list (t : Table) (genId nm ver dat : String) (now : Int)
    (ms0 : List Model)
    (hfresh : ∀ r ∈ t, r.id ≠ SqlValue.text genId)
    (hne : genId ≠ "")
    (hlist : get_models false false t = some ms0) :
    get_models false false (add_model false genId now nm ver dat t)
      = some (ms0 ++ [{ id := genId, name := nm, version := ver, data := dat,
                        create_time := now }]) ∧
    ({ id := genId, name := nm, version := ver, data := dat,
       create_time := now } : Model).id ≠ "" ∧
    (∀ m ∈ ms0, m.id ≠ genId) := by
  rw [get_models_eq_collectRows] at hlist
  refine ⟨?_, hne, ?_⟩
  · rw [add_model_fresh now nm ver dat hfresh, get_models_eq_collectRows]
    exact collectRows_append hlist (rowToModel_insertedRow genId nm ver dat now)
  · intro m hm hmid
    obtain ⟨r, hr, hrm⟩ := (collectRows_mem hlist).2 m hm
    have hid := rowToModel_ok_id hrm
    rw [hmid] at hid
    exact hfresh r hr hid

theorem C1_witness :
    get_models false false
        (add_model false "0b1c2d3e" 7 "m1" "v1" "d2"
          [insertedRow "e2a5e09c" "m1" "v1" "d1" 5])
      = some ([{ id := "e2a5e09c", name := "m1", version := "v1", data := "d1",
                 create_time := 5 }] ++
          [{ id := "0b1c2d3e", name := "m1", version := "v1", data := "d2",
             create_time := 7 }]) ∧
    ({ id := "0b1c2d3e", name := "m1", version := "v1", data := "d2",
       create_time := 7 } : Model).id ≠ "" ∧
    (∀ m ∈ [({ id := "e2a5e09c", name := "m1", version := "v1", data := "d1",
               create_time := 5 } : Model)], m.id ≠ "0b1c2d3e") :=
  C1_create_then_list _ "0b1c2d3e" "m1" "v1" "d2" 7 _
    (by decide) (by decide) (by decide)

/-- C2: deleting by id removes every row carrying that id and only those:
the result never contains the id, every other row survives, the result is
a sublist of the original table (surviving records unchanged, order kept);
when no row has the id the table is returned untouched; and the handler
replies 200 with the JSON success string either way. -/
theorem C2_delete_frame (t : Table) (genId : String) :
    (∀ r ∈ delete_model false genId t, r.id ≠ SqlValue.text genId) ∧
    (∀ r ∈ t, r.id ≠ SqlValue.text genId → r ∈ delete_model false genId t) ∧
    List.Sublist (delete_model false genId t) t ∧
    ((∀ r ∈ t, r.id ≠ SqlValue.text genId) → delete_model false genId t = t) ∧
    (delete_model_handler false { id := genId } t).1 = delete_model false genId t ∧
    (delete_model_handler false { id := genId } t).2
      = { status := 200, body := jsonString "delete success" } := by
  refine ⟨?_, ?_, ?_, ?_, rfl, rfl⟩
  · intro r hr
    rw [delete_model_eq_filter] at hr
    have := (List.mem_filter.mp hr).2
    simpa using this
  · intro r hr hne
    rw [delete_model_eq_filter]
    exact List.mem_filter.mpr ⟨hr, by simpa using hne⟩
  · rw [delete_model_eq_filter]
    exact List.filter_sublist t
  · intro hall
    rw [delete_model_eq_filter]
    apply List.filter_eq_self.mpr
    intro r hr
    simpa using hall r hr

/-- C3: underlying storage failures are swallowed: `add_model` and
`delete_model` log the failure line and return normally with the table
unchanged, and the create and delete handlers reply HTTP 200 with the
JSON success string for every outcome of the storage layer. -/
theorem C3_failures_swallowed (genId nm ver dat delId : String) (now : Int)
    (t : Table) :
    add_model true genId now nm ver dat t = t ∧
    add_model_log true genId now nm ver dat t
      = "insert error, err=" ++ sqlExecErrorMsg .diskFailure ∧
    delete_model true delId t = t ∧
    delete_model_log true delId t
      = "delete error, err=" ++ sqlExecErrorMsg .diskFailure ∧
    (∀ diskFail : Bool,
      (create_model_handler diskFail genId now
          { name := nm, version := ver, data := dat } t).2
        = { status := 200, body := jsonString "create success" }) ∧
    (∀ diskFail : Bool,
      (delete_model_handler diskFail { id := delId } t).2
        = { status := 200, body := jsonString "delete success" }) :=
  ⟨rfl, rfl, rfl, rfl, fun _ => rfl, fun _ => rfl⟩

/-- C4: `new_model_store` returns an error exactly when opening the
database file fails or the schema statement fails; a returned store always
has the `models` table; and the CREATE-TABLE-IF-NOT-EXISTS state change is
idempotent and keeps an existing table untouched. -/
theorem C4_init_iff_and_idempotent (openFails createFails : Bool)
    (file : Option SqliteFile) :
    ((∃ e, new_model_store openFails createFails file = .error e) ↔
      (openFails = true ∨ createFails = true)) ∧
    (∀ st, new_model_store openFails createFails file = .ok st →
      st.modelsTable.isSome = true) ∧
    (∀ f : SqliteFile,
      runCreateModelTable (runCreateModelTable f) = runCreateModelTable f) ∧
    (∀ rows : Table, ∀ f : SqliteFile, f.modelsTable = some rows →
      runCreateModelTable f = f) := by
  refine ⟨new_model_store_error_iff openFails createFails file, ?_, ?_, ?_⟩
  · intro st hst
    cases openFails with
    | true => simp [new_model_store, openConn] at hst
    | false =>
      cases createFails with
      | true => simp [new_model_store, openConn, execCreateModelTable] at hst
      | false =>
        rw [new_model_store_ok] at hst
        simp only [Except.ok.injEq] at hst
        rw [← hst]
        simp [runCreateModelTable]
  · intro f
    simp [runCreateModelTable]
  · intro rows f hf
    obtain ⟨mt⟩ := f
    have h2 : mt = some rows := hf
    subst h2
    rfl

/-- C5: in every reachable store state the list succeeds and is a faithful
snapshot: every stored row appears in the returned collection as its
converted model, and every returned model is the conversion of some stored
row. -/
theorem C5_list_snapshot (t : Table) (h : Reachable t) :
    ∃ ms, get_models false false t = some ms ∧
      (∀ r ∈ t, ∃ m ∈ ms, rowToModel r = .ok m) ∧
      (∀ m ∈ ms, ∃ r ∈ t, rowToModel r = .ok m) := by
  have hwf := reachable_rows_wellformed h
  have hnone : collectRows t ≠ none := by
    intro hc
    obtain ⟨r, hr, e, he⟩ := (collectRows_eq_none_iff t).mp hc
    obtain ⟨m, hm⟩ := hwf r hr
    rw [hm] at he
    cases he
  obtain ⟨ms, hms⟩ := Option.ne_none_iff_exists'.mp hnone
  exact ⟨ms, by rw [get_models_eq_collectRows]; exact hms,
    (collectRows_mem hms).1, (collectRows_mem hms).2⟩

theorem C5_witness :
    ∃ ms, get_models false false (add_model false "aaa" 5 "m1" "v1" "d1" [])
        = some ms ∧
      (∀ r ∈ add_model false "aaa" 5 "m1" "v1" "d1" [],
        ∃ m ∈ ms, rowToModel r = .ok m) ∧
      (∀ m ∈ ms, ∃ r ∈ add_model false "aaa" 5 "m1" "v1" "d1" [],
        rowToModel r = .ok m) :=
  C5_list_snapshot _ (Reachable.add false "aaa" 5 "m1" "v1" "d1" Reachable.init)

/-- C6: in every reachable store state the id column is duplicate-free,
and no operation rewrites an existing record: `add_model` either leaves
the table unchanged or appends one new row, `delete_model` returns a
sublist of the table, and the list handler hands the store back
unchanged. -/
theorem C6_id_unique_records_immutable (t : Table) (h : Reachable t) :
    (t.map Row.id).Nodup ∧
    (∀ (diskFail : Bool) (genId : String) (now : Int) (nm ver dat : String),
      add_model diskFail genId now nm ver dat t = t ∨
      add_model diskFail genId now nm ver dat t
        = t ++ [insertedRow genId nm ver dat now]) ∧
    (∀ (diskFail : Bool) (genId : String),
      List.Sublist (delete_model diskFail genId t) t) ∧
    (∀ prepareFail queryFail : Bool,
      (get_model_handler prepareFail queryFail t).1 = t) := by
  refine ⟨reachable_ids_nodup h, ?_, ?_, fun _ _ => rfl⟩
  · intro diskFail genId now nm ver dat
    rcases add_model_spec diskFail genId now nm ver dat t with he | ⟨_, he⟩
    · exact Or.inl he
    · exact Or.inr he
  · intro diskFail genId
    cases diskFail with
    | true =>
      rw [delete_model_failure]
    | false =>
      rw [delete_model_eq_filter]
      exact List.filter_sublist t

theorem C6_witness :
    ((add_model false "aaa" 5 "m1" "v1" "d1" []).map Row.id).Nodup ∧
    (∀ (diskFail : Bool) (genId : String) (now : Int) (nm ver dat : String),
      add_model diskFail genId now nm ver dat
          (add_model false "aaa" 5 "m1" "v1" "d1" [])
        = add_model false "aaa" 5 "m1" "v1" "d1" [] ∨
      add_model diskFail genId now nm ver dat
          (add_model false "aaa" 5 "m1" "v1" "d1" [])
        = add_model false "aaa" 5 "m1" "v1" "d1" []
            ++ [insertedRow genId nm ver dat now]) ∧
    (∀ (diskFail : Bool) (genId : String),
      List.Sublist
        (delete_model diskFail genId (add_model false "aaa" 5 "m1" "v1" "d1" []))
        (add_model false "aaa" 5 "m1" "v1" "d1" [])) ∧
    (∀ prepareFail queryFail : Bool,
      (get_model_handler prepareFail queryFail
          (add_model false "aaa" 5 "m1" "v1" "d1" [])).1
        = add_model false "aaa" 5 "m1" "v1" "d1" []) :=
  C6_id_unique_records_immutable _
    (Reachable.add false "aaa" 5 "m1" "v1" "d1" Reachable.init)

/-- C7: when store initialization fails, `main` takes the empty `Err`
branch: the outcome is exiting without serving and is never the serving
state. -/
theorem C7_init_failure_never_serves (openFails createFails : Bool)
    (file : Option SqliteFile)
    (h : openFails = true ∨ createFails = true) :
    main (new_model_store openFails createFails file) = .exitedWithoutServing ∧
    ∀ (host : List Nat) (port : Nat) (st : SqliteFile),
      main (new_model_store openFails createFails file) ≠ .serving host port st := by
  obtain ⟨e, he⟩ := (new_model_store_error_iff openFails createFails file).mpr h
  rw [he]
  exact ⟨rfl, fun _ _ _ hc => MainOutcome.noConfusion hc⟩

theorem C7_witness :
    main (new_model_store true false none) = .exitedWithoutServing ∧
    ∀ (host : List Nat) (port : Nat) (st : SqliteFile),
      main (new_model_store true false none) ≠ .serving host port st :=
  C7_init_failure_never_serves true false none (Or.inl rfl)

/-- C8: a failed prepare or a failed query makes `get_models` return the
empty collection with no surfaced error: exactly the value a successful
list of an empty store returns, so the two are indistinguishable at the
interface. -/
theorem C8_query_failure_looks_empty (t : Table) (prepareFail queryFail : Bool)
    (h : prepareFail = true ∨ queryFail = true) :
    get_models prepareFail queryFail t = some [] ∧
    get_models prepareFail queryFail t = get_models false false ([] : Table) := by
  have he : get_models prepareFail queryFail t = some [] := by
    rcases h with h | h
    · subst h
      rfl
    · subst h
      cases prepareFail <;> rfl
  exact ⟨he, he.trans rfl⟩

theorem C8_witness :
    get_models true false [insertedRow "aaa" "m1" "v1" "d1" 5] = some [] ∧
    get_models true false [insertedRow "aaa" "m1" "v1" "d1" 5]
      = get_models false false ([] : Table) :=
  C8_query_failure_looks_empty _ true false (Or.inl rfl)

/-- C9: the successful path of `get_models` completes exactly when every
stored row converts to a `Model`; the per-row `unwrap` turns a single
wrongly typed row into a panic (modelled as `none`) instead of a
return. -/
theorem C9_malformed_row_panics (t : Table) :
    ((∀ r ∈ t, ∃ m, rowToModel r = .ok m) →
      (get_models false false t).isSome = true) ∧
    (get_models false false t = none ↔ ∃ r ∈ t, ∃ e, rowToModel r = .error e) := by
  rw [get_models_eq_collectRows]
  constructor
  · intro hall
    cases hc : collectRows t with
    | some ms => rfl
    | none =>
      obtain ⟨r, hr, e, he⟩ := (collectRows_eq_none_iff t).mp hc
      obtain ⟨m, hm⟩ := hall r hr
      rw [hm] at he
      cases he
  · exact collectRows_eq_none_iff t

/-- C10: `add_model` binds `create_time` as the decimal string of the
millisecond timestamp; INTEGER column affinity converts that text back to
exactly the same integer, so the `create_time` read back as an i64 equals
the timestamp captured at insertion, for every timestamp. -/
theorem C10_create_time_round_trip (now : Int) (genId nm ver dat : String) :
    (insertedRow genId nm ver dat now).create_time
      = applyIntegerAffinity (.text (intToString now)) ∧
    applyIntegerAffinity (SqlValue.text (intToString now))
      = SqlValue.integer now ∧
    (rowToModel (insertedRow genId nm ver dat now)).map Model.create_time
      = .ok now := by
  refine ⟨rfl, applyIntegerAffinity_intToString now, ?_⟩
  rw [rowToModel_insertedRow]
  rfl

end LightCraft
